import Mathlib

/-!
# A shallow embedding of the leveled logger (`logger.go`)

The Go package is embedded function by function.  Go strings are Lean `String`s
(valid UTF-8 only), `LogLevel` (a Go `int` type) is `Int`, a Go pointer is an
`Option` (`none` is `nil`), and a Go map is a function into `Option` (`none` is
a missing key).  What the package takes from its environment is passed in
explicitly:

* the Unicode lower-case table used by `strings.ToLower` for non-ASCII runes,
* the terminal rendering of a style done by `(*color.Color).Sprint`,
* the clock reading and the caller found by `runtime.Caller`,
* the file system consulted by `os.Open`, `yaml` decoding and `os.OpenFile`.

A run-time panic (nil dereference, index out of range) is the `none` result of
the functions that can raise one.
-/

namespace logger

/-! ## Severities -/

/-- Go: `type LogLevel int`. -/
abbrev LogLevel := Int

def LogLevelDefault : LogLevel := 0
def LogLevelInfo : LogLevel := 1
def LogLevelWarning : LogLevel := 2
def LogLevelError : LogLevel := 3
def LogLevelDanger : LogLevel := 4

/-- The five declared severities. -/
def severities : List LogLevel :=
  [LogLevelDefault, LogLevelInfo, LogLevelWarning, LogLevelError, LogLevelDanger]

/-- Go: `func (level LogLevel) String() string`. -/
def LogLevel.String (level : LogLevel) : String :=
  if level = LogLevelInfo then "INFO"
  else if level = LogLevelWarning then "WARNING"
  else if level = LogLevelError then "ERROR"
  else if level = LogLevelDanger then "DANGER"
  else "LOG"

/-! ## `strings.ToLower` and `getLogLevel` -/

/-- Go `unicode.ToLower` on one rune: ASCII runes are handled directly
(`'A'..'Z'` are shifted by `'a' - 'A'`, every other ASCII rune is unchanged),
every other rune goes through the Unicode case table `tbl`. -/
def unicodeToLower (tbl : Char → Char) (r : Char) : Char :=
  if r.val < 128 then
    (if 'A' ≤ r ∧ r ≤ 'Z' then Char.ofNat (r.toNat + 32) else r)
  else tbl r

/-- Go `strings.ToLower`: every rune of the string is mapped by
`unicode.ToLower` (the ASCII fast path of the library computes the same
string). -/
def ToLower (tbl : Char → Char) (s : String) : String :=
  String.mk (s.data.map (unicodeToLower tbl))

/-- Go: `func getLogLevel(levelName string) LogLevel`. -/
def getLogLevel (tbl : Char → Char) (levelName : String) : LogLevel :=
  let lowered := ToLower tbl levelName
  if lowered = "info" then LogLevelInfo
  else if lowered = "warning" then LogLevelWarning
  else if lowered = "error" then LogLevelError
  else if lowered = "danger" then LogLevelDanger
  else LogLevelDefault

/-- An ASCII letter `c` spells the lower-case letter `d` in upper or lower
case. -/
def spellsChar (c d : Char) : Bool :=
  c = d || (decide ('a' ≤ d ∧ d ≤ 'z') && c = Char.ofNat (d.toNat - 32))

/-- The string `s` is an upper/lower-case spelling of the lower-case word
`word`: same length, and letter by letter the same up to ASCII case. -/
def spellsWord : List Char → List Char → Bool
  | [], [] => true
  | c :: cs, d :: ds => spellsChar c d && spellsWord cs ds
  | _, _ => false

/-- Upper/lower-case spelling, on strings. -/
def isSpellingOf (s word : String) : Bool := spellsWord s.data word.data

/-! ## Colours (`github.com/fatih/color`) -/

/-- Go `color.Attribute`: an SGR parameter of the terminal. -/
abbrev Attribute := Nat

def FgBlue : Attribute := 34
def FgWhite : Attribute := 37
def BgRed : Attribute := 41
def BgYellow : Attribute := 43
def BgBlue : Attribute := 44
def FgHiYellow : Attribute := 93
def FgHiBlue : Attribute := 94
def BgHiMagenta : Attribute := 105
def BgHiCyan : Attribute := 106

/-- Go `color.Color`: the list of attributes of a style. -/
structure Color where
  params : List Attribute
  deriving DecidableEq, Repr

/-- Go `color.New(attrs...)`: a fresh, non-nil `*color.Color`. -/
def colorNew (attrs : List Attribute) : Option Color := some { params := attrs }

/-- Go: `var colorMap = map[string]color.Attribute{...}`. -/
def colorMap (name : String) : Option Attribute :=
  if name = "blue" then some BgBlue
  else if name = "yellow" then some BgYellow
  else if name = "red" then some BgRed
  else if name = "magenta" then some BgHiMagenta
  else if name = "cyan" then some BgHiCyan
  else none

/-- Go: `func getColorFromName(colorName string) *color.Color`. -/
def getColorFromName (colorName : String) : Option Color :=
  if colorName = "" then colorNew []
  else
    match colorMap colorName with
    | none => colorNew []
    | some attr => colorNew [attr]

/-! ## The row writer (`encoding/csv`) -/

/-- Go `unicode.IsSpace`. -/
def isSpace (r : Char) : Bool :=
  if r.val ≤ 0xFF then
    r = '\t' || r = '\n' || r.val = 0x0B || r.val = 0x0C || r = '\r' || r = ' '
      || r.val = 0x85 || r.val = 0xA0
  else
    r.val = 0x1680 || (0x2000 ≤ r.val && r.val ≤ 0x200A) || r.val = 0x2028
      || r.val = 0x2029 || r.val = 0x202F || r.val = 0x205F || r.val = 0x3000

/-- Go `csv.Writer`: the field delimiter and the line-ending switch.  The
buffer of the writer is flushed by every caller right after the write, so it
is always empty between calls and is not part of the state. -/
structure Writer where
  Comma : Char
  UseCRLF : Bool
  deriving DecidableEq, Repr

/-- Go `csv.NewWriter`. -/
def NewWriter : Writer := { Comma := ',', UseCRLF := false }

/-- Go `validDelim` of `encoding/csv`. -/
def validDelim (r : Char) : Bool :=
  r.val ≠ 0 && r ≠ '"' && r ≠ '\r' && r ≠ '\n' && r.val ≠ 0xFFFD

/-- Go `(*csv.Writer).fieldNeedsQuotes`. -/
def fieldNeedsQuotes (w : Writer) (field : List Char) : Bool :=
  match field with
  | [] => false
  | r1 :: _ =>
    if field = ['\\', '.'] then true
    else if field.any (fun c => c = '\n' || c = '\r' || c = '"' || c = w.Comma) then true
    else isSpace r1

/-- What the quoting loop of `(*csv.Writer).Write` emits for one character of
a quoted field: a quote is doubled, line breaks follow `UseCRLF`, everything
else is copied verbatim. -/
def quoteChar (w : Writer) (c : Char) : List Char :=
  if c = '"' then ['"', '"']
  else if c = '\r' then (if w.UseCRLF then [] else ['\r'])
  else if c = '\n' then (if w.UseCRLF then ['\r', '\n'] else ['\n'])
  else [c]

/-- The body of a quoted field, without the enclosing quotes. -/
def quoteBody (w : Writer) : List Char → List Char
  | [] => []
  | c :: cs => quoteChar w c ++ quoteBody w cs

/-- One field as `(*csv.Writer).Write` emits it. -/
def writeField (w : Writer) (field : List Char) : List Char :=
  if fieldNeedsQuotes w field then '"' :: (quoteBody w field ++ ['"']) else field

/-- The fields of a record, a delimiter before every field but the first. -/
def writeFields (w : Writer) : List (List Char) → List Char
  | [] => []
  | [f] => writeField w f
  | f :: fs => writeField w f ++ w.Comma :: writeFields w fs

/-- The line ending of a record. -/
def lineEnd (w : Writer) : List Char := if w.UseCRLF then ['\r', '\n'] else ['\n']

/-- Go `(*csv.Writer).Write`: the bytes of the row, or the error of an invalid
delimiter. -/
def Writer.Write (w : Writer) (record : List String) : Except String String :=
  if validDelim w.Comma then
    .ok (String.mk (writeFields w (record.map String.data) ++ lineEnd w))
  else .error "csv: invalid field or comment delimiter"

/-! ## Files (`os.File`) -/

/-- The state of an `*os.File` opened for appending: the contents of the file,
whether the handle has been closed, and how many times its descriptor has been
released to the operating system. -/
structure File where
  name : String
  contents : String
  closed : Bool
  releases : Nat
  deriving DecidableEq, Repr

/-- Go `(*os.File).Close`: the first call releases the descriptor, a later
call fails with `os.ErrClosed` and releases nothing. -/
def File.Close (f : File) : File × Option String :=
  if f.closed then (f, some ("close " ++ f.name ++ ": file already closed"))
  else ({ f with closed := true, releases := f.releases + 1 }, none)

/-- Go `(*os.File).Write` on a file opened with `O_APPEND`. -/
def File.Write (f : File) (data : String) : File × Option String :=
  if f.closed then (f, some ("write " ++ f.name ++ ": file already closed"))
  else ({ f with contents := f.contents ++ data }, none)

/-! ## Configuration -/

/-- Go: `type LogSettings struct`. -/
structure LogSettings where
  LogLevel : String
  LogFileBool : Bool
  LogFileName : String
  LogFileExtension : String
  LogFileMaxBytes : Int
  LogFormat : String
  LogDateFormat : String
  deriving DecidableEq, Repr

/-- Go: the anonymous struct of the field `LogColors` of `LogConfig`. -/
structure LogColors where
  InfoColor : String
  WarningColor : String
  ErrorColor : String
  DangerColor : String
  DefaultColor : String
  deriving DecidableEq, Repr

/-- Go: `type LogConfig struct`. -/
structure LogConfig where
  LogSettings : LogSettings
  LogColors : LogColors
  deriving DecidableEq, Repr

/-- The zero value of `LogConfig` (Go: `var config LogConfig`). -/
def LogConfig.zero : LogConfig :=
  { LogSettings := { LogLevel := "", LogFileBool := false, LogFileName := "",
                     LogFileExtension := "", LogFileMaxBytes := 0, LogFormat := "",
                     LogDateFormat := "" },
    LogColors := { InfoColor := "", WarningColor := "", ErrorColor := "",
                   DangerColor := "", DefaultColor := "" } }

/-- What the package takes from its environment. -/
structure Env where
  /-- the Unicode lower-case table, for non-ASCII runes -/
  lowerTable : Char → Char
  /-- the rendering of `(*color.Color).Sprint` -/
  sprint : Color → String → String
  /-- the result of `os.Open` on a path: the contents of the file, or the error -/
  osOpen : String → Except String String
  /-- the result of `yaml` decoding of a document into a zero `LogConfig` -/
  yamlDecode : String → LogConfig × Option String
  /-- the result of `os.OpenFile(path, O_CREATE|O_APPEND|O_WRONLY, 0644)`: the
  contents the file has at that moment, or the error -/
  osOpenFile : String → Except String String

/-- Go: `func readConfig(configFile string) (LogConfig, error)`. -/
def readConfig (env : Env) (configFile : String) : LogConfig × Option String :=
  match env.osOpen ("config/" ++ configFile) with
  | .error err => (LogConfig.zero, some err)
  | .ok document => env.yamlDecode document

/-! ## The logger -/

/-- Go: `type Logger struct`.  `logColors` is the Go map
`map[LogLevel]*color.Color`: `none` is a missing key, `some none` a key bound
to a nil pointer. -/
structure Logger where
  logLevel : LogLevel
  logFile : Option File
  csvWriter : Option Writer
  logColors : LogLevel → Option (Option Color)
  logFileName : String

/-- Go map assignment `m[k] = v`. -/
def mapSet (m : LogLevel → Option (Option Color)) (k : LogLevel) (v : Option Color) :
    LogLevel → Option (Option Color) :=
  fun key => if key = k then some v else m key

/-- Go map read `m[k]`: the zero value (a nil pointer) when the key is
missing. -/
def mapGet (m : LogLevel → Option (Option Color)) (k : LogLevel) : Option Color :=
  match m k with
  | some v => v
  | none => none

/-- Go: `func (l *Logger) initLogColors(config LogConfig)`. -/
def Logger.initLogColors (l : Logger) (config : LogConfig) : Logger :=
  let m1 := mapSet l.logColors LogLevelInfo (getColorFromName config.LogColors.InfoColor)
  let m2 := mapSet m1 LogLevelWarning (getColorFromName config.LogColors.WarningColor)
  let m3 := mapSet m2 LogLevelError (getColorFromName config.LogColors.ErrorColor)
  let m4 := mapSet m3 LogLevelDanger (getColorFromName config.LogColors.DangerColor)
  let m5 := mapSet m4 LogLevelDefault (getColorFromName config.LogColors.DefaultColor)
  { l with logColors := m5 }

/-- Go `color.XxxString(s)` for the foreground attribute `attr`: the string
rendered in the style `color.New(attr)`. -/
def colorString (env : Env) (attr : Attribute) (s : String) : String :=
  env.sprint { params := [attr] } s

/-- The two return values of `InitialiseLogger`, and what the call printed on
standard output. -/
structure InitResult where
  logger : Option Logger
  err : Option String
  stdout : String

/-- Go: `func InitialiseLogger(configFile string) (*Logger, error)`. -/
def InitialiseLogger (env : Env) (configFile : String) : InitResult :=
  let configFile := if configFile = "" then "config.yaml" else configFile
  match readConfig env configFile with
  | (_, some err) => { logger := none, err := some err, stdout := "" }
  | (config, none) =>
    let logger : Logger :=
      { logLevel := getLogLevel env.lowerTable config.LogSettings.LogLevel,
        logFile := none, csvWriter := none,
        logColors := fun _ => none, logFileName := "" }
    let logger := logger.initLogColors config
    let initialisingMessage :=
      "[" ++ colorString env FgHiYellow "Logger initialized" ++ "]\n"
        ++ "\x1b[0m"
        ++ colorString env FgBlue "Configuration: "
        ++ colorString env FgWhite configFile
        ++ "\x1b[0m" ++ "\n"
        ++ colorString env FgHiBlue "Log file: "
        ++ colorString env FgWhite
             (config.LogSettings.LogFileName ++ config.LogSettings.LogFileExtension)
        ++ "\n"
    if config.LogSettings.LogFileBool then
      let logFileName := config.LogSettings.LogFileName ++ config.LogSettings.LogFileExtension
      match env.osOpenFile logFileName with
      | .error err => { logger := none, err := some err, stdout := "" }
      | .ok contents =>
        { logger := some { logger with
            logFile := some { name := logFileName, contents := contents,
                              closed := false, releases := 0 },
            csvWriter := some NewWriter,
            logFileName := logFileName },
          err := none,
          stdout := initialisingMessage }
    else
      let initialisingMessage_nlf :=
        initialisingMessage
          ++ (colorString env FgHiBlue "Log file: " ++ colorString env FgWhite "False"
              ++ "\x1b[0m" ++ "\n")
      { logger := some logger, err := none, stdout := initialisingMessage_nlf }

/-- Go: `func getSourceLocation() (string, string)`; `caller` is what
`runtime.Caller(2)` found: the file and line of the caller, or nothing. -/
def getSourceLocation (caller : Option (String × Int)) : String × String :=
  match caller with
  | some (sourceFile, line) => (sourceFile, toString line)
  | none => ("unknown", "0")

/-- Go: `func (l *Logger) writeToLogFile(logEntry []string)`.  The result is
the logger after the call; `none` is the panic of a nil `csvWriter`.  An error
of the write or of the flush is dropped, as in the source. -/
def Logger.writeToLogFile (l : Logger) (logEntry : List String) : Option Logger :=
  match l.logFile with
  | none => some l
  | some file =>
    match l.csvWriter with
    | none => none
    | some w =>
      match w.Write logEntry with
      | .error _ => some l
      | .ok row => some { l with logFile := some (file.Write row).1 }

/-- Go: `func (l *Logger) printToConsole(logEntry []string, level LogLevel)`.
The result is the text written to standard output; `none` is a panic (an
index out of range, or `Sprint` on a nil style). -/
def Logger.printToConsole (env : Env) (l : Logger) (logEntry : List String)
    (level : LogLevel) : Option String :=
  let colorizer := mapGet l.logColors level
  match logEntry with
  | timestamp :: levelStr :: message :: file :: _ =>
    match colorizer with
    | none => none
    | some c =>
      some ("[" ++ timestamp ++ "] " ++ env.sprint c levelStr ++ " " ++ message
              ++ " -> " ++ file ++ "\n")
  | _ => none

/-- What a call of `LogMessage` did: the logger after the call, the text it
wrote to standard output, and whether it ended in a panic. -/
structure Outcome where
  logger : Logger
  stdout : String
  panicked : Bool

/-- Go: `func (l *Logger) LogMessage(level LogLevel, message string)`; `now`
is `time.Now().Format(time.RFC3339)` and `caller` what `runtime.Caller(2)`
found. -/
def Logger.LogMessage (env : Env) (now : String) (caller : Option (String × Int))
    (l : Logger) (level : LogLevel) (message : String) : Outcome :=
  if level ≥ l.logLevel then
    let timestamp := now
    let (sourceFile, line) := getSourceLocation caller
    let levelStr := level.String
    let logEntry := [timestamp, levelStr, message, sourceFile, line]
    match l.writeToLogFile logEntry with
    | none => { logger := l, stdout := "", panicked := true }
    | some l1 =>
      match l1.printToConsole env logEntry level with
      | none => { logger := l1, stdout := "", panicked := true }
      | some text => { logger := l1, stdout := text, panicked := false }
  else { logger := l, stdout := "", panicked := false }

/-- Go: `func (l *Logger) Close()`; the error of `logFile.Close()` is
dropped, as in the source. -/
def Logger.Close (l : Logger) : Logger :=
  match l.logFile with
  | some file => { l with logFile := some file.Close.1 }
  | none => l

/-! ## Reading a row back

The package has no reader.  The reader below follows the words of the
specification, "read back and split on the delimiter with standard unquoting":
RFC 4180 fields separated by commas, a field that starts with a double quote
runs to the closing quote with `""` standing for one quote, and a record ends
at a line break outside quotes or at the end of the input. -/

/-- Where the reader is inside a record. -/
inductive ReadState where
  | fieldStart
  | inField
  | inQuotes
  | quoteSeen
  deriving DecidableEq, Repr

/-- The fields of a finished record: the current field `cur` (reversed) closes
the fields `done` (reversed). -/
def endRecord (cur : List Char) (done : List String) : List String :=
  (String.mk cur.reverse :: done).reverse

/-- An RFC 4180 reader of one record: the fields read, and the input left
after the record.  `none` is malformed input. -/
def readRecord : ReadState → List Char → List String → List Char →
    Option (List String × List Char)
  | .inQuotes, _, _, [] => none
  | _, cur, done, [] => some (endRecord cur done, [])
  | .inQuotes, cur, done, c :: rest =>
    if c = '"' then readRecord .quoteSeen cur done rest
    else readRecord .inQuotes (c :: cur) done rest
  | .quoteSeen, cur, done, c :: rest =>
    if c = '"' then readRecord .inQuotes ('"' :: cur) done rest
    else if c = ',' then readRecord .fieldStart [] (String.mk cur.reverse :: done) rest
    else if c = '\n' then some (endRecord cur done, rest)
    else if c = '\r' ∧ rest.head? = some '\n' then some (endRecord cur done, rest.tail)
    else none
  | .fieldStart, cur, done, c :: rest =>
    if c = '"' then readRecord .inQuotes [] done rest
    else if c = ',' then readRecord .fieldStart [] (String.mk cur.reverse :: done) rest
    else if c = '\n' then some (endRecord cur done, rest)
    else if c = '\r' ∧ rest.head? = some '\n' then some (endRecord cur done, rest.tail)
    else readRecord .inField (c :: cur) done rest
  | .inField, cur, done, c :: rest =>
    if c = '"' then none
    else if c = ',' then readRecord .fieldStart [] (String.mk cur.reverse :: done) rest
    else if c = '\n' then some (endRecord cur done, rest)
    else if c = '\r' ∧ rest.head? = some '\n' then some (endRecord cur done, rest.tail)
    else readRecord .inField (c :: cur) done rest

/-- Read the first record of a text: its fields, and the text after it. -/
def readRow (text : String) : Option (List String × String) :=
  match readRecord .fieldStart [] [] text.data with
  | some (fields, rest) => some (fields, String.mk rest)
  | none => none

/-- `c` is an ASCII lower-case letter. -/
def isLowerLetter (c : Char) : Bool := decide ('a' ≤ c ∧ c ≤ 'z')

/-- No character of the field is a quote, a comma or a line break. -/
def plainField (xs : List Char) : Prop :=
  ∀ c ∈ xs, c ≠ '"' ∧ c ≠ ',' ∧ c ≠ '\n' ∧ c ≠ '\r'

/-! ## Names used in the statements -/

/-- U+0130, Latin capital letter I with dot above. -/
def dottedCapitalI : Char := Char.ofNat 0x130

/-- U+212A, the Kelvin sign. -/
def kelvinSign : Char := Char.ofNat 0x212A

/-- The character `c` spells the lower-case letter `d` in Go's Unicode sense
of case: as in `spellsChar`, or `c` is one of the two non-ASCII runes whose
lower case is an ASCII letter, U+0130 for `i` and U+212A for `k`. -/
def spellsCharUnicode (c d : Char) : Bool :=
  spellsChar c d || (d = 'i' && c = dottedCapitalI) || (d = 'k' && c = kelvinSign)

/-- Upper/lower-case spelling of a lower-case word in Go's Unicode sense. -/
def spellsWordUnicode : List Char → List Char → Bool
  | [], [] => true
  | c :: cs, d :: ds => spellsCharUnicode c d && spellsWordUnicode cs ds
  | _, _ => false

/-- Upper/lower-case spelling in Go's Unicode sense, on strings. -/
def isUnicodeSpellingOf (s word : String) : Bool := spellsWordUnicode s.data word.data

/-- What the Unicode lower-case table does as far as ASCII is concerned: it
lowers U+0130 to `i` and U+212A to `k`, and every other non-ASCII rune to a
non-ASCII rune. -/
def lowersLikeUnicode (tbl : Char → Char) : Prop :=
  tbl dottedCapitalI = 'i' ∧ tbl kelvinSign = 'k' ∧
  ∀ r : Char, ¬ r.val < 128 → r ≠ dottedCapitalI → r ≠ kelvinSign → ¬ (tbl r).val < 128

/-- A table with the two entries of the Unicode lower-case table that reach
ASCII, U+0130 to `i` and U+212A to `k`; every other rune is left in place (the
Unicode table sends a non-ASCII rune to a non-ASCII rune, which is all that
`getLogLevel` can tell). -/
def caseTable (r : Char) : Char :=
  if r = dottedCapitalI then 'i' else if r = kelvinSign then 'k' else r


/-- The configuration file that `InitialiseLogger` reads for the argument
`configFile`: the default name stands in for the empty string. -/
def configName (configFile : String) : String :=
  if configFile = "" then "config.yaml" else configFile

/-- The configuration that `InitialiseLogger` works with. -/
def loadedConfig (env : Env) (configFile : String) : LogConfig :=
  (readConfig env (configName configFile)).1

/-- The colour name that a configuration gives to a severity. -/
def configuredColor (config : LogConfig) (level : LogLevel) : String :=
  if level = LogLevelInfo then config.LogColors.InfoColor
  else if level = LogLevelWarning then config.LogColors.WarningColor
  else if level = LogLevelError then config.LogColors.ErrorColor
  else if level = LogLevelDanger then config.LogColors.DangerColor
  else config.LogColors.DefaultColor

/-- The path of the log file of a configuration. -/
def logFilePath (config : LogConfig) : String :=
  config.LogSettings.LogFileName ++ config.LogSettings.LogFileExtension

/-- A rendering of `(*color.Color).Sprint` on a colour terminal, for the
examples: the SGR sequence of the attributes, the text, the reset sequence. -/
def ansiSprint (c : Color) (s : String) : String :=
  "\x1b[" ++ ";".intercalate (c.params.map toString) ++ "m" ++ s ++ "\x1b[0m"

/-- An environment for the examples: the configuration file decodes to
`config`, the log file opens empty (or fails to open when `logFileOpens` is
false), colours are rendered by `ansiSprint`. -/
def exampleEnv (config : LogConfig) (logFileOpens : Bool) : Env :=
  { lowerTable := id,
    sprint := ansiSprint,
    osOpen := fun _ => .ok "",
    yamlDecode := fun _ => (config, none),
    osOpenFile := fun _ => if logFileOpens then .ok "" else .error "permission denied" }

/-- Scenario A: threshold "warning", no log file; "purple" is no colour
name. -/
def scenarioA : LogConfig :=
  { LogSettings := { LogLevel := "warning", LogFileBool := false, LogFileName := "out",
                     LogFileExtension := ".csv", LogFileMaxBytes := 0, LogFormat := "",
                     LogDateFormat := "" },
    LogColors := { InfoColor := "purple", WarningColor := "yellow", ErrorColor := "red",
                   DangerColor := "magenta", DefaultColor := "" } }

/-- Scenario B: threshold "info", log file `out.csv`. -/
def scenarioB : LogConfig :=
  { LogSettings := { LogLevel := "info", LogFileBool := true, LogFileName := "out",
                     LogFileExtension := ".csv", LogFileMaxBytes := 0, LogFormat := "",
                     LogDateFormat := "" },
    LogColors := { InfoColor := "blue", WarningColor := "yellow", ErrorColor := "red",
                   DangerColor := "magenta", DefaultColor := "cyan" } }

/-- The logger that `InitialiseLogger` builds in scenario A. -/
def loggerA : Logger :=
  Logger.initLogColors
    { logLevel := LogLevelWarning, logFile := none, csvWriter := none,
      logColors := fun _ => none, logFileName := "" } scenarioA

/-- The logger that `InitialiseLogger` builds in scenario B when the log file
opens empty. -/
def loggerB : Logger :=
  { Logger.initLogColors
      { logLevel := LogLevelInfo, logFile := none, csvWriter := none,
        logColors := fun _ => none, logFileName := "" } scenarioB with
    logFile := some { name := "out.csv", contents := "", closed := false, releases := 0 },
    csvWriter := some NewWriter,
    logFileName := "out.csv" }

/-- The record that `LogMessage` assembles: timestamp, display name of the
severity, message, source file and line of the caller. -/
def recordOf (now : String) (caller : Option (String × Int)) (level : LogLevel)
    (message : String) : List String :=
  [now, level.String, message, (getSourceLocation caller).1, (getSourceLocation caller).2]

end logger

namespace logger

/-! ## Lower-casing and the level parser -/

theorem unicodeToLower_ascii (tbl : Char → Char) (c : Char) (h : c.val < 128) :
    unicodeToLower tbl c = unicodeToLower id c := by
  simp [unicodeToLower, h]

theorem ascii_table_spells : ∀ n : Fin 128,
    spellsChar (Char.ofNat n.val) (unicodeToLower id (Char.ofNat n.val)) = true := by
  decide

theorem ascii_table_lower : ∀ n : Fin 128, isLowerLetter (Char.ofNat n.val) = true →
    unicodeToLower id (Char.ofNat n.val) = Char.ofNat n.val ∧
    unicodeToLower id (Char.ofNat ((Char.ofNat n.val).toNat - 32)) = Char.ofNat n.val ∧
    (Char.ofNat n.val).val < 128 ∧
    (Char.ofNat ((Char.ofNat n.val).toNat - 32)).val < 128 := by
  decide

theorem char_as_fin (c : Char) (h : c.val < 128) :
    ∃ n : Fin 128, c = Char.ofNat n.val :=
  ⟨⟨c.toNat, h⟩, (Char.ofNat_toNat c).symm⟩

theorem lowerLetter_ascii (d : Char) (h : isLowerLetter d = true) : d.val < 128 := by
  simp only [isLowerLetter, decide_eq_true_eq, Char.le_def] at h
  have h2 : d.val.toNat ≤ 122 := h.2
  show d.val.toNat < 128
  omega

/-- An ASCII character spells its own lower-case form. -/
theorem spellsChar_of_lower (tbl : Char → Char) (c : Char) (h : c.val < 128) :
    spellsChar c (unicodeToLower tbl c) = true := by
  rw [unicodeToLower_ascii tbl c h]
  obtain ⟨n, rfl⟩ := char_as_fin c h
  exact ascii_table_spells n

/-- A character that spells a lower-case letter is lowered to that letter. -/
theorem lower_of_spellsChar (tbl : Char → Char) (c d : Char)
    (hd : isLowerLetter d = true) (h : spellsChar c d = true) :
    unicodeToLower tbl c = d := by
  have hd128 := lowerLetter_ascii d hd
  obtain ⟨n, rfl⟩ := char_as_fin d hd128
  have tab := ascii_table_lower n hd
  simp only [spellsChar, Bool.or_eq_true, Bool.and_eq_true, decide_eq_true_eq] at h
  rcases h with h | ⟨_, h⟩
  · subst h
    rw [unicodeToLower_ascii tbl _ tab.2.2.1]
    exact tab.1
  · subst h
    rw [unicodeToLower_ascii tbl _ tab.2.2.2]
    exact tab.2.1

theorem spellsWord_of_map (tbl : Char → Char) :
    ∀ cs ds : List Char, (∀ c ∈ cs, c.val < 128) →
      cs.map (unicodeToLower tbl) = ds → spellsWord cs ds = true := by
  intro cs
  induction cs with
  | nil => intro ds _ h; subst h; rfl
  | cons c cs ih =>
    intro ds hcs h
    subst h
    simp only [List.map_cons, spellsWord, Bool.and_eq_true]
    exact ⟨spellsChar_of_lower tbl c (hcs c (List.mem_cons_self _ _)),
      ih _ (fun x hx => hcs x (List.mem_cons_of_mem _ hx)) rfl⟩

theorem map_of_spellsWord (tbl : Char → Char) :
    ∀ cs ds : List Char, (∀ d ∈ ds, isLowerLetter d = true) →
      spellsWord cs ds = true → cs.map (unicodeToLower tbl) = ds := by
  intro cs
  induction cs with
  | nil =>
    intro ds _ h
    cases ds with
    | nil => rfl
    | cons d ds => simp [spellsWord] at h
  | cons c cs ih =>
    intro ds hds h
    cases ds with
    | nil => simp [spellsWord] at h
    | cons d ds =>
      simp only [spellsWord, Bool.and_eq_true] at h
      simp only [List.map_cons]
      rw [lower_of_spellsChar tbl c d (hds d (List.mem_cons_self _ _)) h.1,
        ih ds (fun x hx => hds x (List.mem_cons_of_mem _ hx)) h.2]

/-- A spelling of a lower-case word is lowered to that word. -/
theorem ToLower_of_spelling (tbl : Char → Char) (s word : String)
    (hw : ∀ d ∈ word.data, isLowerLetter d = true) (h : isSpellingOf s word = true) :
    ToLower tbl s = word := by
  unfold ToLower
  rw [map_of_spellsWord tbl s.data word.data hw h]

/-- An ASCII string that is lowered to a word is a spelling of that word. -/
theorem spelling_of_ToLower (tbl : Char → Char) (s word : String)
    (hs : ∀ c ∈ s.data, c.val < 128) (h : ToLower tbl s = word) :
    isSpellingOf s word = true := by
  unfold isSpellingOf
  apply spellsWord_of_map tbl s.data word.data hs
  rw [← h]
  rfl

/-- On an ASCII string the Unicode table plays no part. -/
theorem ToLower_ascii (tbl : Char → Char) (s : String) (hs : ∀ c ∈ s.data, c.val < 128) :
    ToLower tbl s = ToLower id s := by
  unfold ToLower
  congr 1
  apply List.map_congr_left
  intro c hc
  exact unicodeToLower_ascii tbl c (hs c hc)

theorem getLogLevel_info_iff (tbl : Char → Char) (s : String) :
    getLogLevel tbl s = LogLevelInfo ↔ ToLower tbl s = "info" := by
  unfold getLogLevel
  constructor
  · intro h
    by_contra hne
    simp only [hne, if_false] at h
    split_ifs at h <;> revert h <;> decide
  · intro h
    simp [h]

theorem getLogLevel_warning_iff (tbl : Char → Char) (s : String) :
    getLogLevel tbl s = LogLevelWarning ↔ ToLower tbl s = "warning" := by
  unfold getLogLevel
  constructor
  · intro h
    by_contra hne
    simp only [hne, if_false] at h
    split_ifs at h <;> revert h <;> decide
  · intro h
    simp [h]

theorem getLogLevel_error_iff (tbl : Char → Char) (s : String) :
    getLogLevel tbl s = LogLevelError ↔ ToLower tbl s = "error" := by
  unfold getLogLevel
  constructor
  · intro h
    by_contra hne
    simp only [hne, if_false] at h
    split_ifs at h <;> revert h <;> decide
  · intro h
    simp [h]

theorem getLogLevel_danger_iff (tbl : Char → Char) (s : String) :
    getLogLevel tbl s = LogLevelDanger ↔ ToLower tbl s = "danger" := by
  unfold getLogLevel
  constructor
  · intro h
    by_contra hne
    simp only [hne, if_false] at h
    split_ifs at h <;> revert h <;> decide
  · intro h
    simp [h]

theorem getLogLevel_default_of_other (tbl : Char → Char) (s : String)
    (h : ToLower tbl s ∉ ["info", "warning", "error", "danger"]) :
    getLogLevel tbl s = LogLevelDefault := by
  simp only [List.mem_cons, List.mem_singleton, List.not_mem_nil, or_false, not_or] at h
  simp [getLogLevel, h.1, h.2.1, h.2.2.1, h.2.2.2]

/-- Whatever the Unicode table: `getLogLevel` gives one of the five severities,
every ASCII case spelling of a level name gets its level, and a string that
is lowered to none of the names gets Default. -/
theorem getLogLevel_any_table (tbl : Char → Char) (s : String) :
    getLogLevel tbl s ∈ severities ∧
    (isSpellingOf s "info" = true → getLogLevel tbl s = LogLevelInfo) ∧
    (isSpellingOf s "warning" = true → getLogLevel tbl s = LogLevelWarning) ∧
    (isSpellingOf s "error" = true → getLogLevel tbl s = LogLevelError) ∧
    (isSpellingOf s "danger" = true → getLogLevel tbl s = LogLevelDanger) ∧
    (ToLower tbl s ∉ ["info", "warning", "error", "danger"] →
      getLogLevel tbl s = LogLevelDefault) ∧
    ((∀ c ∈ s.data, c.val < 128) →
      isSpellingOf s "info" = false → isSpellingOf s "warning" = false →
      isSpellingOf s "error" = false → isSpellingOf s "danger" = false →
      getLogLevel tbl s = LogLevelDefault) ∧
    getLogLevel tbl "" = LogLevelDefault ∧
    getLogLevel tbl "trace" = LogLevelDefault := by
  refine ⟨?_, ?_, ?_, ?_, ?_, getLogLevel_default_of_other tbl s, ?_, ?_, ?_⟩
  · unfold getLogLevel
    dsimp only
    split_ifs <;> decide
  · intro h
    exact (getLogLevel_info_iff tbl s).2 (ToLower_of_spelling tbl s "info" (by decide) h)
  · intro h
    exact (getLogLevel_warning_iff tbl s).2 (ToLower_of_spelling tbl s "warning" (by decide) h)
  · intro h
    exact (getLogLevel_error_iff tbl s).2 (ToLower_of_spelling tbl s "error" (by decide) h)
  · intro h
    exact (getLogLevel_danger_iff tbl s).2 (ToLower_of_spelling tbl s "danger" (by decide) h)
  · intro hs h1 h2 h3 h4
    apply getLogLevel_default_of_other
    simp only [List.mem_cons, List.mem_singleton, List.not_mem_nil, or_false, not_or]
    refine ⟨?_, ?_, ?_, ?_⟩
    · intro e; rw [spelling_of_ToLower tbl s _ hs e] at h1; cases h1
    · intro e; rw [spelling_of_ToLower tbl s _ hs e] at h2; cases h2
    · intro e; rw [spelling_of_ToLower tbl s _ hs e] at h3; cases h3
    · intro e; rw [spelling_of_ToLower tbl s _ hs e] at h4; cases h4
  · apply getLogLevel_default_of_other
    rw [ToLower_ascii tbl "" (by decide)]
    decide
  · apply getLogLevel_default_of_other
    rw [ToLower_ascii tbl "trace" (by decide)]
    decide

/-- A table that lowers like Unicode lowers a character to a lower-case letter
exactly when the character spells the letter. -/
theorem unicodeToLower_eq_iff (tbl : Char → Char) (htbl : lowersLikeUnicode tbl)
    (c d : Char) (hd : isLowerLetter d = true) :
    unicodeToLower tbl c = d ↔ spellsCharUnicode c d = true := by
  have hnotI : ¬ dottedCapitalI.val < 128 := by decide
  have hnotK : ¬ kelvinSign.val < 128 := by decide
  constructor
  · intro e
    by_cases hc : c.val < 128
    · have := spellsChar_of_lower tbl c hc
      rw [e] at this
      simp [spellsCharUnicode, this]
    · have htb : tbl c = d := by
        simpa only [unicodeToLower, hc, if_false] using e
      by_cases hI : c = dottedCapitalI
      · subst hI
        have hdi : d = 'i' := by rw [← htb, htbl.1]
        simp [spellsCharUnicode, hdi]
      · by_cases hK : c = kelvinSign
        · subst hK
          have hdk : d = 'k' := by rw [← htb, htbl.2.1]
          simp [spellsCharUnicode, hdk]
        · exfalso
          have := htbl.2.2 c hc hI hK
          rw [htb] at this
          exact this (lowerLetter_ascii d hd)
  · intro h
    simp only [spellsCharUnicode, Bool.or_eq_true, Bool.and_eq_true, decide_eq_true_eq] at h
    rcases h with (h | ⟨hd1, hc1⟩) | ⟨hd1, hc1⟩
    · exact lower_of_spellsChar tbl c d hd h
    · subst hd1 hc1
      simp only [unicodeToLower, hnotI, if_false, htbl.1]
    · subst hd1 hc1
      simp only [unicodeToLower, hnotK, if_false, htbl.2.1]

theorem map_unicodeToLower_eq_iff (tbl : Char → Char) (htbl : lowersLikeUnicode tbl) :
    ∀ cs ds : List Char, (∀ d ∈ ds, isLowerLetter d = true) →
      (cs.map (unicodeToLower tbl) = ds ↔ spellsWordUnicode cs ds = true) := by
  intro cs
  induction cs with
  | nil =>
    intro ds _
    cases ds with
    | nil => simp [spellsWordUnicode]
    | cons d ds => simp [spellsWordUnicode]
  | cons c cs ih =>
    intro ds hds
    cases ds with
    | nil => simp [spellsWordUnicode]
    | cons d ds =>
      simp only [List.map_cons, List.cons.injEq, spellsWordUnicode, Bool.and_eq_true]
      rw [unicodeToLower_eq_iff tbl htbl c d (hds d (List.mem_cons_self _ _)),
        ih ds (fun x hx => hds x (List.mem_cons_of_mem _ hx))]

/-- A string is lowered to a lower-case word exactly when it spells it. -/
theorem ToLower_eq_iff (tbl : Char → Char) (htbl : lowersLikeUnicode tbl)
    (s word : String) (hw : ∀ d ∈ word.data, isLowerLetter d = true) :
    ToLower tbl s = word ↔ isUnicodeSpellingOf s word = true := by
  unfold isUnicodeSpellingOf
  rw [← map_unicodeToLower_eq_iff tbl htbl s.data word.data hw]
  unfold ToLower
  constructor
  · intro h; rw [← h]
  · intro h; rw [h]

/-- The table `caseTable` lowers like Unicode. -/
theorem caseTable_lowersLikeUnicode : lowersLikeUnicode caseTable := by
  refine ⟨by decide, by decide, ?_⟩
  intro r hr hI hK
  simpa only [caseTable, hI, hK, if_false] using hr

/-- C2, as amended: `getLogLevel` is total and case-insensitive in the sense
of Go's Unicode lower-casing.  Every string gets one of the five severities;
Info, Warning, Error, Danger are returned exactly for the upper/lower-case
spellings of "info", "warning", "error", "danger", where besides the ASCII
capital of a letter the rune U+0130 spells `i` (and U+212A spells `k`); so
every ASCII spelling gets its level, and every other string, the empty one and
"trace" among them, gets Default. -/
theorem getLogLevel_unicode_case_insensitive (tbl : Char → Char)
    (htbl : lowersLikeUnicode tbl) (s : String) :
    getLogLevel tbl s ∈ severities ∧
    (getLogLevel tbl s = LogLevelInfo ↔ isUnicodeSpellingOf s "info" = true) ∧
    (getLogLevel tbl s = LogLevelWarning ↔ isUnicodeSpellingOf s "warning" = true) ∧
    (getLogLevel tbl s = LogLevelError ↔ isUnicodeSpellingOf s "error" = true) ∧
    (getLogLevel tbl s = LogLevelDanger ↔ isUnicodeSpellingOf s "danger" = true) ∧
    (isSpellingOf s "info" = true → getLogLevel tbl s = LogLevelInfo) ∧
    (isSpellingOf s "warning" = true → getLogLevel tbl s = LogLevelWarning) ∧
    (isSpellingOf s "error" = true → getLogLevel tbl s = LogLevelError) ∧
    (isSpellingOf s "danger" = true → getLogLevel tbl s = LogLevelDanger) ∧
    (isUnicodeSpellingOf s "info" = false → isUnicodeSpellingOf s "warning" = false →
      isUnicodeSpellingOf s "error" = false → isUnicodeSpellingOf s "danger" = false →
      getLogLevel tbl s = LogLevelDefault) ∧
    getLogLevel tbl "" = LogLevelDefault ∧
    getLogLevel tbl "trace" = LogLevelDefault := by
  have hany := getLogLevel_any_table tbl s
  have e1 := ToLower_eq_iff tbl htbl s "info" (by decide)
  have e2 := ToLower_eq_iff tbl htbl s "warning" (by decide)
  have e3 := ToLower_eq_iff tbl htbl s "error" (by decide)
  have e4 := ToLower_eq_iff tbl htbl s "danger" (by decide)
  refine ⟨hany.1, (getLogLevel_info_iff tbl s).trans e1,
    (getLogLevel_warning_iff tbl s).trans e2, (getLogLevel_error_iff tbl s).trans e3,
    (getLogLevel_danger_iff tbl s).trans e4, hany.2.1, hany.2.2.1, hany.2.2.2.1,
    hany.2.2.2.2.1, ?_, hany.2.2.2.2.2.2.2.1, hany.2.2.2.2.2.2.2.2⟩
  intro h1 h2 h3 h4
  apply getLogLevel_default_of_other
  simp only [List.mem_cons, List.mem_singleton, List.not_mem_nil, or_false, not_or]
  refine ⟨?_, ?_, ?_, ?_⟩
  · intro e; rw [e1.1 e] at h1; cases h1
  · intro e; rw [e2.1 e] at h2; cases h2
  · intro e; rw [e3.1 e] at h3; cases h3
  · intro e; rw [e4.1 e] at h4; cases h4

/-- C2, as amended, at the table `caseTable`: the spelling "WaRnInG" gets
Warning, "trace" gets Default, and U+0130 followed by "NFO" gets Info. -/
theorem getLogLevel_unicode_case_insensitive_witness :
    lowersLikeUnicode caseTable ∧
    getLogLevel caseTable "WaRnInG" = LogLevelWarning ∧
    getLogLevel caseTable "trace" = LogLevelDefault ∧
    getLogLevel caseTable "İNFO" = LogLevelInfo :=
  ⟨caseTable_lowersLikeUnicode,
   (getLogLevel_unicode_case_insensitive caseTable caseTable_lowersLikeUnicode
      "WaRnInG").2.2.2.2.2.2.1 (by decide),
   (getLogLevel_unicode_case_insensitive caseTable caseTable_lowersLikeUnicode
      "trace").2.2.2.2.2.2.2.2.2.1 (by decide) (by decide) (by decide) (by decide),
   (getLogLevel_unicode_case_insensitive caseTable caseTable_lowersLikeUnicode
      "İNFO").2.1.2 (by decide)⟩

/-- C2 as first stated fails: the string U+0130 followed by "nfo" is no
ASCII upper/lower-case spelling of any of the four level names, and
`getLogLevel` gives it Info, not Default. -/
theorem getLogLevel_other_string_counterexample :
    isSpellingOf "İnfo" "info" = false ∧
    isSpellingOf "İnfo" "warning" = false ∧
    isSpellingOf "İnfo" "error" = false ∧
    isSpellingOf "İnfo" "danger" = false ∧
    getLogLevel caseTable "İnfo" = LogLevelInfo ∧
    getLogLevel caseTable "İnfo" ≠ LogLevelDefault := by
  decide

/-- The level of a string is the same under every table that lowers like
Unicode. -/
theorem getLogLevel_table_independent (tbl : Char → Char) (htbl : lowersLikeUnicode tbl)
    (s : String) : getLogLevel tbl s = getLogLevel caseTable s := by
  have e1 := fun w hw => (ToLower_eq_iff tbl htbl s w hw).trans
    (ToLower_eq_iff caseTable caseTable_lowersLikeUnicode s w hw).symm
  have h1 := e1 "info" (by decide)
  have h2 := e1 "warning" (by decide)
  have h3 := e1 "error" (by decide)
  have h4 := e1 "danger" (by decide)
  simp only [getLogLevel, h1, h2, h3, h4]

/-! ## The row writer and the reader -/

/-- The reader, inside quotes, reads the body of a quoted field back as the
field. -/
theorem readRecord_quoteBody (xs : List Char) :
    ∀ (cur : List Char) (done : List String) (rest : List Char),
      readRecord .inQuotes cur done (quoteBody NewWriter xs ++ rest)
        = readRecord .inQuotes (xs.reverse ++ cur) done rest := by
  induction xs with
  | nil => intro cur done rest; rfl
  | cons c xs ih =>
    intro cur done rest
    simp only [quoteBody, quoteChar, NewWriter, List.reverse_cons, List.append_assoc,
      List.singleton_append]
    by_cases h1 : c = '"'
    · subst h1
      simp only [if_true, List.cons_append, List.nil_append, readRecord]
      exact ih _ _ _
    · by_cases h2 : c = '\r'
      · subst h2
        simp only [if_neg h1, if_true, Bool.false_eq_true, if_false, List.cons_append,
          List.nil_append, readRecord]
        exact ih _ _ _
      · by_cases h3 : c = '\n'
        · subst h3
          simp only [if_neg h1, if_neg h2, if_true, Bool.false_eq_true, if_false,
            List.cons_append, List.nil_append, readRecord]
          exact ih _ _ _
        · simp only [if_neg h1, if_neg h2, if_neg h3, List.cons_append, List.nil_append,
            readRecord]
          exact ih _ _ _

theorem plainField_of_not_needsQuotes (f : List Char)
    (h : fieldNeedsQuotes NewWriter f = false) : plainField f := by
  cases f with
  | nil => intro c hc; cases hc
  | cons r1 tl =>
    simp only [fieldNeedsQuotes] at h
    split_ifs at h with h1 h2
    intro c hc
    simp only [List.any_eq_true, not_exists, not_and, Bool.or_eq_true, decide_eq_true_eq,
      NewWriter, not_or] at h2
    have := h2 c hc
    exact ⟨this.1.2, this.2, this.1.1.1, this.1.1.2⟩

/-- The reader, inside an unquoted field, reads plain characters as they
are. -/
theorem readRecord_plain (xs : List Char) :
    ∀ (cur : List Char) (done : List String) (rest : List Char), plainField xs →
      readRecord .inField cur done (xs ++ rest)
        = readRecord .inField (xs.reverse ++ cur) done rest := by
  induction xs with
  | nil => intro cur done rest _; rfl
  | cons c xs ih =>
    intro cur done rest hp
    have hc := hp c (List.mem_cons_self _ _)
    have hxs : plainField xs := fun x hx => hp x (List.mem_cons_of_mem _ hx)
    simp only [List.cons_append, readRecord, if_neg hc.1, if_neg hc.2.1, if_neg hc.2.2.1,
      hc.2.2.2, false_and, if_false, List.reverse_cons, List.append_assoc,
      List.singleton_append]
    exact ih _ _ _ hxs

/-- A written field followed by a comma: the reader takes the field and goes
on with the next one. -/
theorem readRecord_field_comma (f : List Char) (done : List String) (rest : List Char) :
    readRecord .fieldStart [] done (writeField NewWriter f ++ ',' :: rest)
      = readRecord .fieldStart [] (String.mk f :: done) rest := by
  unfold writeField
  by_cases hq : fieldNeedsQuotes NewWriter f = true
  · simp only [hq, if_true, List.cons_append, List.append_assoc, readRecord,
      readRecord_quoteBody, List.append_nil, List.singleton_append, List.reverse_reverse]
    simp
  · simp only [hq, Bool.false_eq_true, if_false]
    have hp := plainField_of_not_needsQuotes f (by simpa using hq)
    cases f with
    | nil => simp [readRecord]
    | cons c xs =>
      have hc := hp c (List.mem_cons_self _ _)
      have hxs : plainField xs := fun x hx => hp x (List.mem_cons_of_mem _ hx)
      simp only [List.cons_append, readRecord, if_neg hc.1, if_neg hc.2.1, if_neg hc.2.2.1,
        hc.2.2.2, false_and, if_false]
      rw [List.append_eq, readRecord_plain xs _ _ _ hxs]
      simp [readRecord, endRecord]

/-- A written field followed by the line end: the reader takes the field and
closes the record. -/
theorem readRecord_field_end (f : List Char) (done : List String) (rest : List Char) :
    readRecord .fieldStart [] done (writeField NewWriter f ++ '\n' :: rest)
      = some (endRecord f.reverse done, rest) := by
  unfold writeField
  by_cases hq : fieldNeedsQuotes NewWriter f = true
  · simp only [hq, if_true, List.cons_append, List.append_assoc, readRecord,
      readRecord_quoteBody, List.append_nil, List.singleton_append]
    simp
  · simp only [hq, Bool.false_eq_true, if_false]
    have hp := plainField_of_not_needsQuotes f (by simpa using hq)
    cases f with
    | nil => simp [readRecord]
    | cons c xs =>
      have hc := hp c (List.mem_cons_self _ _)
      have hxs : plainField xs := fun x hx => hp x (List.mem_cons_of_mem _ hx)
      simp only [List.cons_append, readRecord, if_neg hc.1, if_neg hc.2.1, if_neg hc.2.2.1,
        hc.2.2.2, false_and, if_false]
      rw [List.append_eq, readRecord_plain xs _ _ _ hxs]
      simp [readRecord, endRecord]

/-- The written fields of a non-empty record, followed by the line end, are
read back as the record. -/
theorem readRecord_writeFields (fs : List (List Char)) :
    ∀ (f : List Char) (done : List String) (rest : List Char),
      readRecord .fieldStart [] done (writeFields NewWriter (f :: fs) ++ '\n' :: rest)
        = some (done.reverse ++ (f :: fs).map String.mk, rest) := by
  induction fs with
  | nil =>
    intro f done rest
    simp [writeFields, readRecord_field_end, endRecord]
  | cons g gs ih =>
    intro f done rest
    have hw : writeFields NewWriter (f :: g :: gs)
        = writeField NewWriter f ++ ',' :: writeFields NewWriter (g :: gs) := rfl
    rw [hw, List.append_assoc, List.cons_append, readRecord_field_comma, ih]
    simp

/-- A non-empty record written by the row writer and read back: the fields are
the ones written, and the reader stops right after the row. -/
theorem readRow_Write (field : String) (fields : List String) (more : String) :
    ∃ row, NewWriter.Write (field :: fields) = .ok row ∧
      readRow (row ++ more) = some (field :: fields, more) := by
  refine ⟨String.mk (writeFields NewWriter ((field :: fields).map String.data)
    ++ lineEnd NewWriter), ?_, ?_⟩
  · rfl
  · unfold readRow
    have h : (String.mk (writeFields NewWriter ((field :: fields).map String.data)
        ++ lineEnd NewWriter) ++ more).data
        = writeFields NewWriter (field.data :: fields.map String.data) ++ '\n' :: more.data := by
      simp [lineEnd, NewWriter, String.data_append]
    have hid : (String.mk ∘ String.data) = id := funext (fun _ => rfl)
    rw [h, readRecord_writeFields]
    simp [hid]

/-! ## Initialisation -/

/-- After `initLogColors` each of the five severities is bound to the style
of its configured colour name. -/
theorem initLogColors_get (l : Logger) (config : LogConfig) (level : LogLevel)
    (h : level ∈ severities) :
    (l.initLogColors config).logColors level
      = some (getColorFromName (configuredColor config level)) := by
  simp only [severities, List.mem_cons, List.mem_singleton, List.not_mem_nil, or_false] at h
  rcases h with h | h | h | h | h <;> subst h <;>
    simp [Logger.initLogColors, mapSet, configuredColor, LogLevelDefault, LogLevelInfo,
      LogLevelWarning, LogLevelError, LogLevelDanger]

/-- A style built by `getColorFromName` is never nil. -/
theorem getColorFromName_some (name : String) :
    ∃ c, getColorFromName name = some c := by
  unfold getColorFromName colorNew
  split_ifs
  · exact ⟨_, rfl⟩
  · split <;> exact ⟨_, rfl⟩

/-- What a successful `InitialiseLogger` returns. -/
theorem InitialiseLogger_some (env : Env) (configFile : String) (l : Logger)
    (h : (InitialiseLogger env configFile).logger = some l) :
    (readConfig env (configName configFile)).2 = none ∧
    (InitialiseLogger env configFile).err = none ∧
    l.logLevel = getLogLevel env.lowerTable (loadedConfig env configFile).LogSettings.LogLevel ∧
    (∀ level ∈ severities, l.logColors level
      = some (getColorFromName (configuredColor (loadedConfig env configFile) level))) ∧
    (((loadedConfig env configFile).LogSettings.LogFileBool = false ∧
        l.logFile = none ∧ l.csvWriter = none) ∨
     ((loadedConfig env configFile).LogSettings.LogFileBool = true ∧
        l.csvWriter = some NewWriter ∧
        ∃ contents, env.osOpenFile (logFilePath (loadedConfig env configFile)) = .ok contents ∧
          l.logFile = some { name := logFilePath (loadedConfig env configFile),
                             contents := contents, closed := false, releases := 0 })) := by
  unfold InitialiseLogger at h ⊢
  unfold loadedConfig logFilePath configName
  generalize (if configFile = "" then "config.yaml" else configFile) = name at h ⊢
  dsimp only at h ⊢
  rcases hrc : readConfig env name with ⟨config, _ | err⟩
  · rw [hrc] at h
    simp only at h ⊢
    by_cases hb : config.LogSettings.LogFileBool = true
    · simp only [hb, if_true] at h ⊢
      rcases hof : env.osOpenFile (config.LogSettings.LogFileName
          ++ config.LogSettings.LogFileExtension) with err | contents
      · rw [hof] at h
        simp at h
      · rw [hof] at h
        simp only [Option.some.injEq] at h
        subst h
        refine ⟨trivial, rfl, rfl, fun level hl => initLogColors_get _ _ level hl, ?_⟩
        right
        exact ⟨trivial, rfl, contents, rfl, rfl⟩
    · simp only [hb, if_false, Bool.false_eq_true] at h ⊢
      simp only [Option.some.injEq] at h
      subst h
      refine ⟨trivial, trivial, rfl, fun level hl => initLogColors_get _ _ level hl, ?_⟩
      left
      exact ⟨by simp, rfl, rfl⟩
  · rw [hrc] at h
    simp at h

theorem InitialiseLogger_scenarioA :
    (InitialiseLogger (exampleEnv scenarioA true) "").logger = some loggerA := rfl

theorem InitialiseLogger_scenarioB :
    (InitialiseLogger (exampleEnv scenarioB true) "").logger = some loggerB := rfl

/-! ## Colours -/

/-- C3: `getColorFromName` is a total function of the colour name: "blue",
"yellow", "red", "magenta", "cyan" give the style with exactly the one
background attribute BgBlue, BgYellow, BgRed, BgHiMagenta, BgHiCyan; the empty
name and every other name ("purple" among them) give the style without
attributes; the result is never nil. -/
theorem getColorFromName_total (name : String) :
    getColorFromName "blue" = some { params := [BgBlue] } ∧
    getColorFromName "yellow" = some { params := [BgYellow] } ∧
    getColorFromName "red" = some { params := [BgRed] } ∧
    getColorFromName "magenta" = some { params := [BgHiMagenta] } ∧
    getColorFromName "cyan" = some { params := [BgHiCyan] } ∧
    getColorFromName "" = some { params := [] } ∧
    getColorFromName "purple" = some { params := [] } ∧
    (name ∉ ["blue", "yellow", "red", "magenta", "cyan"] →
      getColorFromName name = some { params := [] }) ∧
    getColorFromName name ≠ none := by
  refine ⟨by decide, by decide, by decide, by decide, by decide, by decide, by decide, ?_, ?_⟩
  · intro h
    simp only [List.mem_cons, List.mem_singleton, List.not_mem_nil, or_false, not_or] at h
    simp [getColorFromName, colorMap, colorNew, h.1, h.2.1, h.2.2.1, h.2.2.2.1, h.2.2.2.2]
  · obtain ⟨c, hc⟩ := getColorFromName_some name
    simp [hc]

/-- C3 at the unrecognised name "turquoise". -/
theorem getColorFromName_total_witness :
    getColorFromName "turquoise" = some { params := [] } :=
  (getColorFromName_total "turquoise").2.2.2.2.2.2.2.1 (by decide)

/-- C4: the logger built by `InitialiseLogger` has, for each of the five
severities, a colour-mapping entry that is the non-nil style
`getColorFromName` of the configured name, so the style lookup of
`printToConsole` finds a style and the call does not panic. -/
theorem InitialiseLogger_colours_complete (env : Env) (configFile : String) (l : Logger)
    (h : (InitialiseLogger env configFile).logger = some l)
    (level : LogLevel) (hl : level ∈ severities) :
    l.logColors level
      = some (getColorFromName (configuredColor (loadedConfig env configFile) level)) ∧
    (∃ c, getColorFromName (configuredColor (loadedConfig env configFile) level) = some c ∧
      mapGet l.logColors level = some c) ∧
    (∀ timestamp levelStr message file rest,
      (l.printToConsole env (timestamp :: levelStr :: message :: file :: rest) level).isSome
        = true) := by
  have hcol := (InitialiseLogger_some env configFile l h).2.2.2.1 level hl
  obtain ⟨c, hc⟩ :=
    getColorFromName_some (configuredColor (loadedConfig env configFile) level)
  have hget : mapGet l.logColors level = some c := by
    simp [mapGet, hcol, hc]
  refine ⟨hcol, ⟨c, hc, hget⟩, ?_⟩
  intro timestamp levelStr message file rest
  simp [Logger.printToConsole, hget]

/-- C4 in scenario A, where the Info colour "purple" is unrecognised and the
Default colour is empty. -/
theorem InitialiseLogger_colours_complete_witness :
    loggerA.logColors LogLevelInfo = some (getColorFromName "purple") ∧
    loggerA.logColors LogLevelDefault = some (getColorFromName "") :=
  ⟨(InitialiseLogger_colours_complete (exampleEnv scenarioA true) "" loggerA
      InitialiseLogger_scenarioA LogLevelInfo (by decide)).1,
   (InitialiseLogger_colours_complete (exampleEnv scenarioA true) "" loggerA
      InitialiseLogger_scenarioA LogLevelDefault (by decide)).1⟩

/-! ## The console sink -/

/-- C8: on a logger built by `InitialiseLogger`, for every record and each of
the five severities, `printToConsole` writes exactly the text
"[" timestamp "] " styled(levelName) " " message " -> " sourceFile newline,
the style of the severity being applied to the level name only; the line
number is not printed. -/
theorem printToConsole_line (env : Env) (configFile : String) (l : Logger)
    (h : (InitialiseLogger env configFile).logger = some l)
    (level : LogLevel) (hl : level ∈ severities)
    (timestamp levelStr message file line : String) :
    ∃ c, getColorFromName (configuredColor (loadedConfig env configFile) level) = some c ∧
      l.printToConsole env [timestamp, levelStr, message, file, line] level
        = some ("[" ++ timestamp ++ "] " ++ env.sprint c levelStr ++ " " ++ message
                  ++ " -> " ++ file ++ "\n") := by
  have hcol := (InitialiseLogger_some env configFile l h).2.2.2.1 level hl
  obtain ⟨c, hc⟩ :=
    getColorFromName_some (configuredColor (loadedConfig env configFile) level)
  refine ⟨c, hc, ?_⟩
  simp [Logger.printToConsole, mapGet, hcol, hc]

/-- C8 in scenario B: an Error record, with the background red on the level
name only. -/
theorem printToConsole_line_witness :
    loggerB.printToConsole (exampleEnv scenarioB true)
        ["2024-01-02T03:04:05Z", "ERROR", "boom", "/src/main.go", "42"] LogLevelError
      = some "[2024-01-02T03:04:05Z] \x1b[41mERROR\x1b[0m boom -> /src/main.go\n" := by
  obtain ⟨c, hc, hline⟩ := printToConsole_line (exampleEnv scenarioB true) "" loggerB
    InitialiseLogger_scenarioB LogLevelError (by decide)
    "2024-01-02T03:04:05Z" "ERROR" "boom" "/src/main.go" "42"
  have hred : c = { params := [BgRed] } := by
    have : getColorFromName (configuredColor (loadedConfig (exampleEnv scenarioB true) "")
        LogLevelError) = some { params := [BgRed] } := by decide
    rw [this] at hc
    exact (Option.some.inj hc).symm
  subst hred
  rw [hline]
  decide

/-! ## The logging call -/

theorem append_ne_left (s t : String) (ht : t ≠ "") : s ++ t ≠ s := by
  intro h
  apply ht
  have hd := congrArg String.data h
  rw [String.data_append] at hd
  have : t.data = [] := by simpa using hd
  exact String.ext this

theorem consoleLine_ne_empty (a b : String) : "[" ++ a ++ b ≠ "" := by
  intro h
  have hd := congrArg String.data h
  simp [String.data_append] at hd

theorem row_ne_empty (record : List String) (row : String)
    (h : NewWriter.Write record = .ok row) : row ≠ "" := by
  simp only [Writer.Write, NewWriter, validDelim] at h
  intro he
  subst he
  simp [lineEnd] at h
  have hd := congrArg String.data h
  simp at hd

/-- `LogMessage`, with the record it assembles named. -/
theorem LogMessage_eq (env : Env) (now : String) (caller : Option (String × Int))
    (l : Logger) (level : LogLevel) (message : String) :
    l.LogMessage env now caller level message =
      if l.logLevel ≤ level then
        match l.writeToLogFile (recordOf now caller level message) with
        | none => { logger := l, stdout := "", panicked := true }
        | some l1 =>
          match l1.printToConsole env (recordOf now caller level message) level with
          | none => { logger := l1, stdout := "", panicked := true }
          | some text => { logger := l1, stdout := text, panicked := false }
      else { logger := l, stdout := "", panicked := false } := by
  unfold Logger.LogMessage recordOf
  rcases getSourceLocation caller with ⟨sourceFile, line⟩
  rfl

/-- The file sink on a logger without a handle does nothing. -/
theorem writeToLogFile_none (l : Logger) (entry : List String) (hf : l.logFile = none) :
    l.writeToLogFile entry = some l := by
  simp [Logger.writeToLogFile, hf]

/-- The file sink on a logger with an open handle appends the row of the
record. -/
theorem writeToLogFile_open (l : Logger) (f : File) (entry : List String)
    (hf : l.logFile = some f) (hopen : f.closed = false)
    (hw : l.csvWriter = some NewWriter) :
    ∃ row, NewWriter.Write entry = .ok row ∧
      l.writeToLogFile entry
        = some { l with logFile := some { f with contents := f.contents ++ row } } := by
  refine ⟨String.mk (writeFields NewWriter (entry.map String.data) ++ lineEnd NewWriter),
    rfl, ?_⟩
  have hwr : NewWriter.Write entry
      = .ok (String.mk (writeFields NewWriter (entry.map String.data) ++ lineEnd NewWriter)) :=
    rfl
  simp only [Logger.writeToLogFile, hf, hw, hwr, File.Write, hopen, Bool.false_eq_true,
    if_false]

/-- The file sink on a logger with a closed handle leaves the file as it is. -/
theorem writeToLogFile_closed (l : Logger) (f : File) (entry : List String)
    (hf : l.logFile = some f) (hclosed : f.closed = true)
    (hw : l.csvWriter = some NewWriter) :
    l.writeToLogFile entry = some { l with logFile := some f } := by
  have hwr : NewWriter.Write entry
      = .ok (String.mk (writeFields NewWriter (entry.map String.data) ++ lineEnd NewWriter)) :=
    rfl
  simp only [Logger.writeToLogFile, hf, hw, hwr, File.Write, hclosed, if_true]

/-- The file sink of a well-formed logger does not panic and leaves the
threshold and the colours alone. -/
theorem writeToLogFile_total (l : Logger) (entry : List String)
    (hw : l.logFile ≠ none → l.csvWriter = some NewWriter) :
    ∃ l1, l.writeToLogFile entry = some l1 ∧ l1.logColors = l.logColors ∧
      l1.logLevel = l.logLevel := by
  rcases hf : l.logFile with _ | f
  · exact ⟨l, writeToLogFile_none l entry hf, rfl, rfl⟩
  · have hw2 := hw (by simp [hf])
    by_cases hc : f.closed = true
    · exact ⟨_, writeToLogFile_closed l f entry hf hc hw2, rfl, rfl⟩
    · obtain ⟨row, _, hrow⟩ := writeToLogFile_open l f entry hf (by simpa using hc) hw2
      exact ⟨_, hrow, rfl, rfl⟩

/-- What an accepted call does on a well-formed logger whose colour mapping
knows the severity: the record goes to the file sink, then to the console
sink, and the console text is not empty. -/
theorem LogMessage_accepted (env : Env) (now : String) (caller : Option (String × Int))
    (l : Logger) (level : LogLevel) (message : String)
    (hc : mapGet l.logColors level ≠ none)
    (hw : l.logFile ≠ none → l.csvWriter = some NewWriter)
    (hacc : l.logLevel ≤ level) :
    l.writeToLogFile (recordOf now caller level message)
      = some (l.LogMessage env now caller level message).logger ∧
    (l.LogMessage env now caller level message).logger.printToConsole env
        (recordOf now caller level message) level
      = some (l.LogMessage env now caller level message).stdout ∧
    (l.LogMessage env now caller level message).panicked = false ∧
    (l.LogMessage env now caller level message).stdout ≠ "" := by
  obtain ⟨l1, hl1, hcol, _⟩ := writeToLogFile_total l (recordOf now caller level message) hw
  obtain ⟨c, hcs⟩ := Option.ne_none_iff_exists'.mp hc
  have hprint : l1.printToConsole env (recordOf now caller level message) level
      = some ("[" ++ now ++ "] " ++ env.sprint c level.String ++ " " ++ message
                ++ " -> " ++ (getSourceLocation caller).1 ++ "\n") := by
    simp [Logger.printToConsole, recordOf, hcol, hcs]
  rw [LogMessage_eq, if_pos hacc, hl1]
  simp only [hprint]
  refine ⟨trivial, trivial, trivial, ?_⟩
  simp only [String.append_assoc]
  exact consoleLine_ne_empty _ _

/-- What a filtered call does: nothing. -/
theorem LogMessage_filtered (env : Env) (now : String) (caller : Option (String × Int))
    (l : Logger) (level : LogLevel) (message : String) (hlt : level < l.logLevel) :
    l.LogMessage env now caller level message
      = { logger := l, stdout := "", panicked := false } := by
  rw [LogMessage_eq, if_neg (not_le.mpr hlt)]

/-- C1: `LogMessage` with severity S on a logger with threshold T hands the
record to the file sink and to the console sink if and only if S >= T.  When
S >= T the file sink and then the console sink receive the record and a
console text is written (and a row is appended to an open log file); when
S < T the logger and its file are unchanged and nothing is written to the
console. -/
theorem LogMessage_threshold (env : Env) (now : String) (caller : Option (String × Int))
    (l : Logger) (S : LogLevel) (message : String)
    (hc : mapGet l.logColors S ≠ none)
    (hw : l.logFile ≠ none → l.csvWriter = some NewWriter) :
    (l.logLevel ≤ S →
      l.writeToLogFile (recordOf now caller S message)
        = some (l.LogMessage env now caller S message).logger ∧
      (l.LogMessage env now caller S message).logger.printToConsole env
          (recordOf now caller S message) S
        = some (l.LogMessage env now caller S message).stdout ∧
      (l.LogMessage env now caller S message).panicked = false) ∧
    (S < l.logLevel →
      (l.LogMessage env now caller S message).logger.logFile = l.logFile ∧
      (l.LogMessage env now caller S message).stdout = "" ∧
      (l.LogMessage env now caller S message).panicked = false) ∧
    ((l.LogMessage env now caller S message).stdout ≠ "" ↔ l.logLevel ≤ S) ∧
    (∀ f, l.logFile = some f → f.closed = false →
      ((∃ f1, (l.LogMessage env now caller S message).logger.logFile = some f1 ∧
          f1.contents ≠ f.contents) ↔ l.logLevel ≤ S)) := by
  refine ⟨?_, ?_, ?_, ?_⟩
  · intro hacc
    have h := LogMessage_accepted env now caller l S message hc hw hacc
    exact ⟨h.1, h.2.1, h.2.2.1⟩
  · intro hlt
    rw [LogMessage_filtered env now caller l S message hlt]
    exact ⟨rfl, rfl, rfl⟩
  · constructor
    · intro hne
      by_contra hnot
      rw [LogMessage_filtered env now caller l S message (not_le.mp hnot)] at hne
      exact hne rfl
    · intro hacc
      exact (LogMessage_accepted env now caller l S message hc hw hacc).2.2.2
  · intro f hf hopen
    constructor
    · rintro ⟨f1, hf1, hne⟩
      by_contra hnot
      rw [LogMessage_filtered env now caller l S message (not_le.mp hnot)] at hf1
      simp only [hf, Option.some.injEq] at hf1
      exact hne (by rw [hf1])
    · intro hacc
      have hsink := (LogMessage_accepted env now caller l S message hc hw hacc).1
      obtain ⟨row, hrow, hwrite⟩ := writeToLogFile_open l f (recordOf now caller S message)
        hf hopen (hw (by simp [hf]))
      rw [hwrite] at hsink
      have hlog := Option.some.inj hsink
      refine ⟨{ f with contents := f.contents ++ row }, by rw [← hlog], ?_⟩
      exact append_ne_left _ _ (row_ne_empty _ _ hrow)

/-- C1 in scenario A (threshold Warning): Info "hello" writes nothing, Error
"boom" writes a console text. -/
theorem LogMessage_threshold_witness :
    (loggerA.LogMessage (exampleEnv scenarioA true) "2024-01-02T03:04:05Z"
        (some ("/src/main.go", 42)) LogLevelInfo "hello").stdout = "" ∧
    (loggerA.LogMessage (exampleEnv scenarioA true) "2024-01-02T03:04:05Z"
        (some ("/src/main.go", 42)) LogLevelError "boom").stdout ≠ "" :=
  ⟨((LogMessage_threshold (exampleEnv scenarioA true) "2024-01-02T03:04:05Z"
        (some ("/src/main.go", 42)) loggerA LogLevelInfo "hello"
        (by decide) (by decide)).2.1 (by decide)).2.1,
   (LogMessage_threshold (exampleEnv scenarioA true) "2024-01-02T03:04:05Z"
        (some ("/src/main.go", 42)) loggerA LogLevelError "boom"
        (by decide) (by decide)).2.2.1.2 (by decide)⟩

/-! ## The file sink -/

/-- The row of a non-empty record, read back on its own. -/
theorem readRow_row (field : String) (fields : List String) (row : String)
    (h : NewWriter.Write (field :: fields) = .ok row) :
    readRow row = some (field :: fields, "") ∧
    ∀ more, readRow (row ++ more) = some (field :: fields, more) := by
  have hall : ∀ more, readRow (row ++ more) = some (field :: fields, more) := by
    intro more
    obtain ⟨row2, hrow2, hread⟩ := readRow_Write field fields more
    rw [h] at hrow2
    cases hrow2
    exact hread
  refine ⟨?_, hall⟩
  have := hall ""
  rwa [String.append_empty] at this

/-- C5: round trip of the file sink.  The row that `writeToLogFile` appends
for a five-field record, read back with standard unquoting, gives exactly the
five fields, whatever the message (commas, double quotes and line breaks
included), also when more text follows the row. -/
theorem writeToLogFile_round_trip (l : Logger) (f : File)
    (timestamp level message sourceFile line : String)
    (hf : l.logFile = some f) (hopen : f.closed = false)
    (hw : l.csvWriter = some NewWriter) :
    ∃ row,
      l.writeToLogFile [timestamp, level, message, sourceFile, line]
        = some { l with logFile := some { f with contents := f.contents ++ row } } ∧
      readRow row = some ([timestamp, level, message, sourceFile, line], "") ∧
      ∀ more, readRow (row ++ more)
        = some ([timestamp, level, message, sourceFile, line], more) := by
  obtain ⟨row, hrow, hwrite⟩ :=
    writeToLogFile_open l f [timestamp, level, message, sourceFile, line] hf hopen hw
  exact ⟨row, hwrite, readRow_row _ _ row hrow⟩

/-- C5 in scenario B, with a message that holds a comma, double quotes and a
line break. -/
theorem writeToLogFile_round_trip_witness :
    ∃ row,
      loggerB.writeToLogFile
          ["2024-01-02T03:04:05Z", "INFO", "a, \"b\"\nc", "/src/main.go", "42"]
        = some { loggerB with
            logFile := some { name := "out.csv", contents := "" ++ row, closed := false,
                              releases := 0 } } ∧
      readRow row
        = some (["2024-01-02T03:04:05Z", "INFO", "a, \"b\"\nc", "/src/main.go", "42"], "") ∧
      ∀ more, readRow (row ++ more)
        = some (["2024-01-02T03:04:05Z", "INFO", "a, \"b\"\nc", "/src/main.go", "42"], more) :=
  writeToLogFile_round_trip loggerB
    { name := "out.csv", contents := "", closed := false, releases := 0 }
    "2024-01-02T03:04:05Z" "INFO" "a, \"b\"\nc" "/src/main.go" "42" rfl rfl rfl

/-- An accepted call on a logger with an open log file appends the row of
the record that `LogMessage` assembles. -/
theorem LogMessage_appends_record (env : Env) (now : String)
    (caller : Option (String × Int)) (l : Logger) (level : LogLevel) (message : String)
    (f : File) (hf : l.logFile = some f) (hopen : f.closed = false)
    (hw : l.csvWriter = some NewWriter) (hacc : l.logLevel ≤ level) :
    ∃ row,
      (l.LogMessage env now caller level message).logger.logFile
        = some { f with contents := f.contents ++ row } ∧
      readRow row = some (recordOf now caller level message, "") := by
  obtain ⟨row, hrow, hwrite⟩ :=
    writeToLogFile_open l f (recordOf now caller level message) hf hopen hw
  refine ⟨row, ?_, (readRow_row _ _ row hrow).1⟩
  rw [LogMessage_eq, if_pos hacc, hwrite]
  dsimp only
  split <;> rfl

/-- C7: an accepted `LogMessage` call on a logger with an open log file
appends exactly one row, whose five columns are the timestamp, the display
name of the severity, the message unchanged, the source file of the caller
and the line of the caller in decimal ("unknown" and "0" when the caller
cannot be found); a logger without log file gets no row; the display names
are "LOG", "INFO", "WARNING", "ERROR", "DANGER", and "LOG" for any other
value. -/
theorem LogMessage_appends_row (env : Env) (now : String) (l : Logger)
    (level : LogLevel) (message : String) :
    (∀ (f : File) (callerFile : String) (callerLine : Int),
      l.logFile = some f → f.closed = false → l.csvWriter = some NewWriter →
      l.logLevel ≤ level →
      ∃ row,
        (l.LogMessage env now (some (callerFile, callerLine)) level message).logger.logFile
          = some { f with contents := f.contents ++ row } ∧
        readRow row
          = some ([now, level.String, message, callerFile, toString callerLine], "")) ∧
    (∀ f : File,
      l.logFile = some f → f.closed = false → l.csvWriter = some NewWriter →
      l.logLevel ≤ level →
      ∃ row,
        (l.LogMessage env now none level message).logger.logFile
          = some { f with contents := f.contents ++ row } ∧
        readRow row = some ([now, level.String, message, "unknown", "0"], "")) ∧
    (∀ caller, l.logFile = none →
      (l.LogMessage env now caller level message).logger.logFile = none) ∧
    LogLevelDefault.String = "LOG" ∧ LogLevelInfo.String = "INFO" ∧
    LogLevelWarning.String = "WARNING" ∧ LogLevelError.String = "ERROR" ∧
    LogLevelDanger.String = "DANGER" ∧
    (level ∉ severities → level.String = "LOG") := by
  refine ⟨?_, ?_, ?_, by decide, by decide, by decide, by decide, by decide, ?_⟩
  · intro f callerFile callerLine hf hopen hw hacc
    exact LogMessage_appends_record env now (some (callerFile, callerLine)) l level message
      f hf hopen hw hacc
  · intro f hf hopen hw hacc
    exact LogMessage_appends_record env now none l level message f hf hopen hw hacc
  · intro caller hf
    rw [LogMessage_eq]
    split_ifs
    · rw [writeToLogFile_none l _ hf]
      dsimp only
      split <;> exact hf
    · exact hf
  · intro hl
    simp only [severities, List.mem_cons, List.mem_singleton, List.not_mem_nil, or_false,
      not_or] at hl
    simp [LogLevel.String, hl.2.1, hl.2.2.1, hl.2.2.2.1, hl.2.2.2.2]

/-- C7 in scenario B: Info "start" from line 42 of `/src/main.go` appends one
row with the columns timestamp, "INFO", "start", "/src/main.go", "42"; when
the caller cannot be found the last two columns are "unknown" and "0". -/
theorem LogMessage_appends_row_witness :
    (∃ row,
      (loggerB.LogMessage (exampleEnv scenarioB true) "2024-01-02T03:04:05Z"
          (some ("/src/main.go", 42)) LogLevelInfo "start").logger.logFile
        = some { name := "out.csv", contents := "" ++ row, closed := false, releases := 0 } ∧
      readRow row
        = some (["2024-01-02T03:04:05Z", "INFO", "start", "/src/main.go", "42"], "")) ∧
    (∃ row,
      (loggerB.LogMessage (exampleEnv scenarioB true) "2024-01-02T03:04:05Z"
          none LogLevelInfo "start").logger.logFile
        = some { name := "out.csv", contents := "" ++ row, closed := false, releases := 0 } ∧
      readRow row
        = some (["2024-01-02T03:04:05Z", "INFO", "start", "unknown", "0"], "")) :=
  ⟨(LogMessage_appends_row (exampleEnv scenarioB true) "2024-01-02T03:04:05Z"
      loggerB LogLevelInfo "start").1
      { name := "out.csv", contents := "", closed := false, releases := 0 }
      "/src/main.go" 42 rfl rfl rfl (by decide),
   (LogMessage_appends_row (exampleEnv scenarioB true) "2024-01-02T03:04:05Z"
      loggerB LogLevelInfo "start").2.1
      { name := "out.csv", contents := "", closed := false, releases := 0 }
      rfl rfl rfl (by decide)⟩

/-! ## The startup banner -/

/-- The banner of a successful `InitialiseLogger`: the configuration file and
the log file path are always printed; without file output a second "Log file"
line with "False" follows the line with the path. -/
theorem InitialiseLogger_banner (env : Env) (configFile : String) (l : Logger)
    (h : (InitialiseLogger env configFile).logger = some l) :
    (InitialiseLogger env configFile).stdout =
      ("[" ++ colorString env FgHiYellow "Logger initialized" ++ "]\n" ++ "\x1b[0m"
        ++ colorString env FgBlue "Configuration: "
        ++ colorString env FgWhite (configName configFile) ++ "\x1b[0m" ++ "\n"
        ++ colorString env FgHiBlue "Log file: "
        ++ colorString env FgWhite (logFilePath (loadedConfig env configFile)) ++ "\n")
      ++ (if (loadedConfig env configFile).LogSettings.LogFileBool = true then ""
          else colorString env FgHiBlue "Log file: " ++ colorString env FgWhite "False"
                 ++ "\x1b[0m" ++ "\n") := by
  unfold InitialiseLogger at h ⊢
  unfold loadedConfig logFilePath configName
  generalize (if configFile = "" then "config.yaml" else configFile) = name at h ⊢
  dsimp only at h ⊢
  rcases hrc : readConfig env name with ⟨config, _ | err⟩
  · rw [hrc] at h
    dsimp only at h ⊢
    by_cases hb : config.LogSettings.LogFileBool = true
    · simp only [hb, if_true] at h ⊢
      rcases hof : env.osOpenFile (config.LogSettings.LogFileName
          ++ config.LogSettings.LogFileExtension) with err | contents
      · rw [hof] at h
        simp at h
      · simp only [String.append_empty]
    · simp only [hb, if_false, Bool.false_eq_true]
  · rw [hrc] at h
    simp at h

/-- C9, the code at scenario A (file output disabled, file name "out",
extension ".csv", default configuration file): the banner names the
configuration file, then reports the log file as the path "out.csv" and, on
the next line, as "False". -/
theorem InitialiseLogger_banner_disabled :
    (InitialiseLogger (exampleEnv scenarioA true) "").err = none ∧
    (InitialiseLogger (exampleEnv scenarioA true) "").stdout
      = "[\x1b[93mLogger initialized\x1b[0m]\n\x1b[0m"
        ++ "\x1b[34mConfiguration: \x1b[0m\x1b[37mconfig.yaml\x1b[0m\x1b[0m\n"
        ++ "\x1b[94mLog file: \x1b[0m\x1b[37mout.csv\x1b[0m\n"
        ++ "\x1b[94mLog file: \x1b[0m\x1b[37mFalse\x1b[0m\x1b[0m\n" := by
  decide

/-! ## Closing -/

/-- C10: `Close` is idempotent and has no failure of its own: closing twice
leaves the logger as closing once does (and so does closing any number of
times); the handle ends closed and its descriptor is released at most once,
the error of the second `logFile.Close()` being dropped; on a logger without
output handle `Close` changes nothing. -/
theorem Close_idempotent (l : Logger) :
    l.Close.Close = l.Close ∧
    (∀ n : Nat, Logger.Close^[n + 1] l = l.Close) ∧
    (∀ f, l.logFile = some f →
      ∃ f1, l.Close.logFile = some f1 ∧ l.Close.Close.logFile = some f1 ∧
        f1.closed = true ∧ f1.contents = f.contents ∧
        f1.releases = (if f.closed then f.releases else f.releases + 1) ∧
        f1.Close.1 = f1 ∧ f1.Close.2 ≠ none) ∧
    (l.logFile = none → l.Close = l) := by
  have hidem : ∀ k : Logger, k.Close.Close = k.Close := by
    intro k
    rcases hk : k.logFile with _ | f
    · simp [Logger.Close, hk]
    · by_cases hc : f.closed = true <;> simp [Logger.Close, hk, File.Close, hc]
  refine ⟨hidem l, ?_, ?_, ?_⟩
  · intro n
    induction n with
    | zero => rfl
    | succ n ih =>
      rw [Function.iterate_succ_apply', ih]
      exact hidem l
  · intro f hf
    by_cases hc : f.closed = true
    · exact ⟨f, by simp [Logger.Close, hf, File.Close, hc],
        by simp [Logger.Close, hf, File.Close, hc], hc, rfl, by simp [hc],
        by simp [File.Close, hc], by simp [File.Close, hc]⟩
    · exact ⟨{ f with closed := true, releases := f.releases + 1 },
        by simp [Logger.Close, hf, File.Close, hc],
        by simp [Logger.Close, hf, File.Close, hc], rfl, rfl, by simp [hc],
        by simp [File.Close], by simp [File.Close]⟩
  · intro hf
    simp [Logger.Close, hf]

/-- C10 in scenario B: after two calls of `Close` the handle is closed and
its descriptor has been released once. -/
theorem Close_idempotent_witness :
    ∃ f1, loggerB.Close.logFile = some f1 ∧ loggerB.Close.Close.logFile = some f1 ∧
      f1.closed = true ∧ f1.contents = "" ∧ f1.releases = 1 := by
  obtain ⟨f1, h1, h2, h3, h4, h5, _⟩ := (Close_idempotent loggerB).2.2.1
    { name := "out.csv", contents := "", closed := false, releases := 0 } rfl
  exact ⟨f1, h1, h2, h3, h4, h5⟩

end logger
